import Mathlib

/-!
Shallow embedding of `src/vectorizer_ai/utils.py` (the validation helpers of
the vectorizer-ai SDK) and proofs about its behaviour.

Python values are modelled by `PyVal`: booleans, integers, floats (modelled as
rationals, since the validators only compare them), strings, and `None`.
Exceptions are modelled by the `Except PyErr` monad, with `PyErr` recording
which exception class is raised (messages are abstracted away).
-/

namespace VectorizerAi

/-- The Python exception classes raised by the validation helpers. -/
inductive PyErr where
  | valueError : PyErr
  | typeError : PyErr
deriving DecidableEq, Repr

/-- Python runtime values that can reach the validators: `bool`, `int`,
`float` (modelled as a rational, the validators only order/compare them),
`str`, and `None`. -/
inductive PyVal where
  | bool : Bool → PyVal
  | int : Int → PyVal
  | float : ℚ → PyVal
  | str : String → PyVal
  | none : PyVal
deriving DecidableEq, Repr

/-- Python truthiness (`bool(v)`) for the modelled values: `False`, `0`,
`0.0`, `""` and `None` are falsy, everything else truthy. -/
def truthy : PyVal → Bool
  | .bool b => b
  | .int n => n != 0
  | .float q => q != 0
  | .str _s => _s != ""
  | .none => false

/-- The numeric value of a `PyVal`, when it has one: in Python, `bool` is a
subclass of `int` (`True == 1`, `False == 0`), and `int` and `float` compare
numerically. Strings and `None` have no numeric value. -/
def toRat? : PyVal → Option ℚ
  | .bool b => some (if b then 1 else 0)
  | .int n => some (n : ℚ)
  | .float q => some q
  | _ => Option.none

/-- Python `a <= b` on the modelled values: numeric comparison between
numbers (with `bool` as `0`/`1`), lexicographic comparison between strings,
and `TypeError` on any mixed comparison (e.g. `int <= str`, `None <= int`). -/
def pyLE (a b : PyVal) : Except PyErr Bool :=
  match a, b with
  | .str s, .str t => .ok (decide (s ≤ t))
  | _, _ =>
    match toRat? a, toRat? b with
    | some x, some y => .ok (decide (x ≤ y))
    | _, _ => .error .typeError

/-- Python `a == b` on the modelled values: numeric equality between numbers
(with `bool` as `0`/`1`), string equality between strings, `None == None`,
and `False` on any other mix (Python `==` does not raise here). -/
def pyEq (a b : PyVal) : Bool :=
  match a, b with
  | .str s, .str t => s == t
  | .none, .none => true
  | _, _ =>
    match toRat? a, toRat? b with
    | some x, some y => x == y
    | _, _ => false

/-- The `options` argument of `validate_param`: a Python `list`, a Python
`tuple` (of any length), or any other object (e.g. a set or a bare value),
as only `isinstance(options, tuple)` / `isinstance(options, list)` matter. -/
inductive PyOptions where
  | list : List PyVal → PyOptions
  | tuple : List PyVal → PyOptions
  | other : PyOptions

/-- `utils.param_exists(names, params)`: raises `ValueError` when
`not any(params)`, i.e. when no element of `params` is truthy; `names` is
only used to build the error message. -/
def param_exists (names : List String) (params : List PyVal) :
    Except PyErr Unit :=
  if params.any truthy then .ok () else .error .valueError

/-- `utils.validate_param(param, options)`.

* `isinstance(options, tuple) and len(options) == 2`: unpack `start, end`,
  and `if param and not (start <= param <= end): raise ValueError`.  The
  truthiness of `param` is tested first; the chained comparison evaluates
  `start <= param` and only when that is true also `param <= end`
  (a `TypeError` from either comparison propagates).
* `elif isinstance(options, list)`: `if param not in options: raise
  ValueError`, membership via Python `==`.
* Any other `options` (including tuples of length ≠ 2) falls through both
  branches and the function returns `None`. -/
def validate_param (param : PyVal) (options : PyOptions) :
    Except PyErr Unit :=
  match options with
  | .tuple [start, stop] =>
    if truthy param then
      match pyLE start param with
      | .error e => .error e
      | .ok false => .error .valueError
      | .ok true =>
        match pyLE param stop with
        | .error e => .error e
        | .ok false => .error .valueError
        | .ok true => .ok ()
    else .ok ()
  | .tuple _ => .ok ()
  | .list opts =>
    if opts.any (fun o => pyEq param o) then .ok () else .error .valueError
  | .other => .ok ()

/-- The character class `[0-9a-fA-F]` of the regex in `validate_hex`. -/
def isHexDigit (c : Char) : Bool :=
  ('0' ≤ c && c ≤ '9') || ('a' ≤ c && c ≤ 'f') || ('A' ≤ c && c ≤ 'F')

/-- `re.compile(r'^#[0-9a-fA-F]{6}$').match(...)` on a list of characters.
With Python semantics, `$` matches at the end of the string *or just before
a newline at the end of the string*, so a trailing `'\n'` after the six hex
digits is also accepted. -/
def hexMatchAux (l : List Char) : Bool :=
  match l with
  | c :: rest =>
    c == '#' &&
      ((rest.length == 6 && rest.all isHexDigit) ||
        (rest.length == 7 && (rest.take 6).all isHexDigit &&
          rest.getLast? == some '\n'))
  | [] => false

/-- Whether `re.compile(r'^#[0-9a-fA-F]{6}$').match(s)` succeeds. -/
def hexMatch (s : String) : Bool :=
  hexMatchAux s.data

/-- `utils.validate_hex(color)`: `pattern.match(color)` raises `TypeError`
when `color` is not a string (e.g. an `int` or `None`); otherwise a failed
match raises `ValueError` and a successful match returns `None`. -/
def validate_hex (color : PyVal) : Except PyErr Unit :=
  match color with
  | .str s => if hexMatch s then .ok () else .error .valueError
  | _ => .error .typeError

/-- The Python types that appear as annotations checked by `isinstance`. -/
inductive PyType where
  | bool | int | float | str
deriving DecidableEq, Repr

/-- One argument of a decorated method call, after `sig.bind` and
`apply_defaults`: the parameter's name, its type annotation when it has one
(`hint = Option.none` models `sig.empty`), and the bound value. -/
structure BoundArg where
  name : String
  hint : Option PyType
  value : PyVal

/-- Python `isinstance(value, t)` for the modelled values; `bool` is a
subclass of `int`, so `isinstance(True, int)` holds. -/
def isinstance : PyVal → PyType → Bool
  | .bool _, .bool => true
  | .bool _, .int => true
  | .int _, .int => true
  | .float _, .float => true
  | .str _, .str => true
  | _, _ => false

/-- The checking loop of the `enforce_types` wrapper: walk the bound
arguments, skip `self` and parameters without an annotation, and raise
`TypeError` at the first annotated argument whose value fails `isinstance`. -/
def typeCheckArgs : List BoundArg → Except PyErr Unit
  | [] => .ok ()
  | a :: rest =>
    if a.name == "self" then typeCheckArgs rest
    else
      match a.hint with
      | Option.none => typeCheckArgs rest
      | some t =>
        if isinstance a.value t then typeCheckArgs rest
        else .error .typeError

/-- `utils.enforce_types(method)`: the returned wrapper first runs the
argument checks and only when they all pass calls `method` on the same
bound arguments, returning its result unchanged. -/
def enforce_types (method : List BoundArg → Except PyErr PyVal)
    (args : List BoundArg) : Except PyErr PyVal :=
  match typeCheckArgs args with
  | .error e => .error e
  | .ok () => method args

/-! ### Helper lemmas -/

/-- When both sides have a numeric value, `pyLE` is the rational order. -/
theorem pyLE_numeric {a b : PyVal} {x y : ℚ} (ha : toRat? a = some x)
    (hb : toRat? b = some y) : pyLE a b = .ok (decide (x ≤ y)) := by
  cases a <;> cases b <;> simp_all [pyLE, toRat?]

/-- A numeric value ordered against a string raises `TypeError`. -/
theorem pyLE_numeric_str {a : PyVal} {x : ℚ} (ha : toRat? a = some x)
    (s : String) : pyLE a (PyVal.str s) = .error .typeError := by
  cases a <;> simp_all [pyLE, toRat?]

/-- Every `Except PyErr Unit` computation returns `()` or raises. -/
theorem except_unit_cases (r : Except PyErr Unit) :
    r = Except.ok () ∨ ∃ e, r = Except.error e := by
  cases r with
  | ok u => exact Or.inl rfl
  | error e => exact Or.inr ⟨e, rfl⟩

/-- The range branch of `validate_param` on numeric inputs: with a 2-tuple
`(start, end)` of numbers and a numeric `param`, the result is `ValueError`
exactly when `param` is truthy and lies outside `[start, end]`. -/
theorem validate_param_range_eq (param a b : PyVal) (p x y : ℚ)
    (hp : toRat? param = some p) (ha : toRat? a = some x)
    (hb : toRat? b = some y) :
    validate_param param (PyOptions.tuple [a, b]) =
      if truthy param = true ∧ ¬ (x ≤ p ∧ p ≤ y) then
        Except.error PyErr.valueError
      else Except.ok () := by
  have hLa : pyLE a param = .ok (decide (x ≤ p)) := pyLE_numeric ha hp
  have hLb : pyLE param b = .ok (decide (p ≤ y)) := pyLE_numeric hp hb
  rw [validate_param]
  by_cases ht : truthy param = true
  · rw [if_pos ht, hLa]
    by_cases h1 : x ≤ p
    · rw [decide_eq_true h1, hLb]
      by_cases h2 : p ≤ y
      · simp [h1, h2, ht]
      · simp [h1, h2, ht]
    · simp [h1, ht]
  · rw [if_neg ht]
    simp [ht]

/-! ### Claim theorems -/

/-- C3: `param_exists` raises `ValueError` if and only if none of the values
in `params` is non-empty (truthy, in Python's sense: non-empty strings,
nonzero numbers, `True`); when at least one value is truthy it returns
without error. -/
theorem param_exists_iff (names : List String) (params : List PyVal) :
    (param_exists names params = Except.error PyErr.valueError ↔
      ∀ p ∈ params, truthy p = false)
    ∧ (param_exists names params = Except.ok () ↔
      ∃ p ∈ params, truthy p = true) := by
  rw [param_exists]
  by_cases h : params.any truthy = true
  · rw [if_pos h]
    simp only [List.any_eq_true] at h
    obtain ⟨p, hp, ht⟩ := h
    constructor
    · constructor
      · intro hc
        cases hc
      · intro hall
        have := hall p hp
        rw [ht] at this
        cases this
    · exact ⟨fun _ => ⟨p, hp, ht⟩, fun _ => rfl⟩
  · rw [if_neg h]
    simp only [List.any_eq_true] at h
    push_neg at h
    constructor
    · refine ⟨fun _ p hp => ?_, fun _ => rfl⟩
      have := h p hp
      cases htp : truthy p
      · rfl
      · exact absurd htp this
    · constructor
      · intro hc
        cases hc
      · rintro ⟨p, hp, ht⟩
        exact absurd ht (h p hp)

/-- C5: with a list of options, `validate_param` raises `ValueError` if and
only if `param` is not a member of the list (membership via Python `==`);
when it is a member it returns without error. -/
theorem validate_param_list_iff (param : PyVal) (opts : List PyVal) :
    (validate_param param (PyOptions.list opts) = Except.error PyErr.valueError ↔
      ∀ o ∈ opts, pyEq param o = false)
    ∧ (validate_param param (PyOptions.list opts) = Except.ok () ↔
      ∃ o ∈ opts, pyEq param o = true) := by
  rw [validate_param]
  by_cases h : opts.any (fun o => pyEq param o) = true
  · rw [if_pos h]
    simp only [List.any_eq_true] at h
    obtain ⟨o, ho, he⟩ := h
    constructor
    · constructor
      · intro hc
        cases hc
      · intro hall
        have := hall o ho
        rw [he] at this
        cases this
    · exact ⟨fun _ => ⟨o, ho, he⟩, fun _ => rfl⟩
  · rw [if_neg h]
    simp only [List.any_eq_true] at h
    push_neg at h
    constructor
    · refine ⟨fun _ o ho => ?_, fun _ => rfl⟩
      have := h o ho
      cases heq : pyEq param o
      · rfl
      · exact absurd heq this
    · constructor
      · intro hc
        cases hc
      · rintro ⟨o, ho, he⟩
        exact absurd he (h o ho)

/-- C7: each of `param_exists`, `validate_param` and `validate_hex` is a
total function: on every input it terminates and either returns `()` or
raises an exception, with no other outcome. -/
theorem validators_total (names : List String) (params : List PyVal)
    (param : PyVal) (options : PyOptions) (color : PyVal) :
    (param_exists names params = Except.ok () ∨
      ∃ e, param_exists names params = Except.error e)
    ∧ (validate_param param options = Except.ok () ∨
      ∃ e, validate_param param options = Except.error e)
    ∧ (validate_hex color = Except.ok () ∨
      ∃ e, validate_hex color = Except.error e) :=
  ⟨except_unit_cases _, except_unit_cases _, except_unit_cases _⟩

/-- C8: when `options` is neither a list nor a tuple of length exactly 2
(for example a 3-tuple, or a set or bare value, modelled by
`PyOptions.other`), `validate_param` returns without error regardless of
`param`: both `isinstance` branches are skipped and nothing is raised. -/
theorem validate_param_other_ok (param : PyVal) (opts : List PyVal)
    (h : opts.length ≠ 2) :
    validate_param param (PyOptions.tuple opts) = Except.ok ()
    ∧ validate_param param PyOptions.other = Except.ok () := by
  refine ⟨?_, rfl⟩
  match opts with
  | [] => rfl
  | [_a] => rfl
  | [_a, _b] => exact absurd rfl h
  | _a :: _b :: _c :: _rest => rfl

/-- Witness for C8 at the 3-tuple `(1, 2, 3)` and `param = 99`. -/
theorem validate_param_other_ok_witness :
    validate_param (PyVal.int 99)
      (PyOptions.tuple [PyVal.int 1, PyVal.int 2, PyVal.int 3]) =
      Except.ok ()
    ∧ validate_param (PyVal.int 99) PyOptions.other = Except.ok () :=
  validate_param_other_ok (PyVal.int 99)
    [PyVal.int 1, PyVal.int 2, PyVal.int 3] (by simp)

/-- C9: on any input that is not a string (e.g. an `int` or `None`),
`validate_hex` raises `TypeError` (from `pattern.match`), not `ValueError`. -/
theorem validate_hex_nonstring (color : PyVal)
    (h : ∀ s, color ≠ PyVal.str s) :
    validate_hex color = Except.error PyErr.typeError := by
  cases color with
  | bool b => rfl
  | int n => rfl
  | float q => rfl
  | str s => exact absurd rfl (h s)
  | none => rfl

/-- Witness for C9 at `color = None`. -/
theorem validate_hex_nonstring_witness :
    validate_hex PyVal.none = Except.error PyErr.typeError :=
  validate_hex_nonstring PyVal.none (fun s h => PyVal.noConfusion h)

/-- C1 counterexample: `param = 0` with range options `(1, 2)`.  `0` does
not fall within the range `1` to `2`, yet `validate_param` returns without
error, because the guard `if param and ...` skips all validation for a
falsy `param`.  This refutes the claim as stated. -/
theorem validate_param_range_cex :
    validate_param (PyVal.int 0) (PyOptions.tuple [PyVal.int 1, PyVal.int 2]) =
      Except.ok ()
    ∧ ¬ ((1 : ℚ) ≤ 0 ∧ (0 : ℚ) ≤ 2) :=
  ⟨rfl, by norm_num⟩

/-- C1 amended: for every numeric `param` (`bool`, `int`, or `float`; a
truthy `str` raises `TypeError` instead, see the C6 theorem) and every
2-tuple `(start, end)` of numbers, `validate_param` raises `ValueError` if
`param` is truthy and does not fall within the range `start` to `end`
inclusive, and returns without error if `param` is falsy or falls within
the range. -/
theorem validate_param_range_amended (param a b : PyVal) (p x y : ℚ)
    (hp : toRat? param = some p) (ha : toRat? a = some x)
    (hb : toRat? b = some y) :
    validate_param param (PyOptions.tuple [a, b]) =
      if truthy param = true ∧ ¬ (x ≤ p ∧ p ≤ y) then
        Except.error PyErr.valueError
      else Except.ok () :=
  validate_param_range_eq param a b p x y hp ha hb

/-- Witness for the amended C1 at `param = 3`, range `(1, 5)`. -/
theorem validate_param_range_amended_witness :
    validate_param (PyVal.int 3) (PyOptions.tuple [PyVal.int 1, PyVal.int 5]) =
      Except.ok () := by
  have h := validate_param_range_amended (PyVal.int 3) (PyVal.int 1)
    (PyVal.int 5) 3 1 5 (by norm_num [toRat?]) (by norm_num [toRat?])
    (by norm_num [toRat?])
  rw [h]
  norm_num [truthy]

/-- C6 counterexample: `param = "a"` (a declared argument type) with the
declared range options `(0, 1)`.  The ordered comparison `0 <= "a"` raises
`TypeError`, so an exception other than `ValueError` reaches the caller,
refuting the claim as stated. -/
theorem validate_param_errors_cex :
    validate_param (PyVal.str "a") (PyOptions.tuple [PyVal.int 0, PyVal.int 1])
      ≠ Except.ok ()
    ∧ validate_param (PyVal.str "a")
        (PyOptions.tuple [PyVal.int 0, PyVal.int 1])
      ≠ Except.error PyErr.valueError := by
  have h : validate_param (PyVal.str "a")
      (PyOptions.tuple [PyVal.int 0, PyVal.int 1]) =
      Except.error PyErr.typeError := rfl
  rw [h]
  exact ⟨by simp, by simp⟩

/-- C6 amended: for every `param` of the declared argument types and every
`options` of the declared types, `validate_param` either returns `None` or
raises `ValueError` — except that a truthy `str` param with a 2-tuple of
numbers raises `TypeError`, from the ordered comparison between a number
and a string.  (A falsy `str`, like any falsy param, is not compared and
passes.) -/
theorem validate_param_errors_amended (param a b : PyVal) (x y : ℚ)
    (opts : List PyVal) (ha : toRat? a = some x) (hb : toRat? b = some y) :
    (validate_param param (PyOptions.list opts) = Except.ok () ∨
      validate_param param (PyOptions.list opts) =
        Except.error PyErr.valueError)
    ∧ ((∃ p, toRat? param = some p) ∨ truthy param = false →
      validate_param param (PyOptions.tuple [a, b]) = Except.ok () ∨
        validate_param param (PyOptions.tuple [a, b]) =
          Except.error PyErr.valueError)
    ∧ (∀ s, param = PyVal.str s → truthy param = true →
      validate_param param (PyOptions.tuple [a, b]) =
        Except.error PyErr.typeError) := by
  refine ⟨?_, ?_, ?_⟩
  · rw [validate_param]
    by_cases h : opts.any (fun o => pyEq param o) = true
    · rw [if_pos h]
      exact Or.inl rfl
    · rw [if_neg h]
      exact Or.inr rfl
  · rintro (⟨p, hp⟩ | ht)
    · rw [validate_param_range_eq param a b p x y hp ha hb]
      by_cases hc : truthy param = true ∧ ¬ (x ≤ p ∧ p ≤ y)
      · rw [if_pos hc]
        exact Or.inr rfl
      · rw [if_neg hc]
        exact Or.inl rfl
    · rw [validate_param, if_neg (by simp [ht])]
      exact Or.inl rfl
  · rintro s rfl ht
    rw [validate_param, if_pos ht, pyLE_numeric_str ha]

/-- Witness for the amended C6 at `param = "a"`, range `(0, 1)`,
options list `[]`. -/
theorem validate_param_errors_amended_witness :
    validate_param (PyVal.str "a") (PyOptions.tuple [PyVal.int 0, PyVal.int 1])
      = Except.error PyErr.typeError :=
  (validate_param_errors_amended (PyVal.str "a") (PyVal.int 0) (PyVal.int 1)
    0 1 [] (by norm_num [toRat?]) (by norm_num [toRat?])).2.2 "a" rfl rfl

/-- If some checked argument fails its `isinstance` test, the checking loop
raises `TypeError`. -/
theorem typeCheckArgs_error_of (args : List BoundArg)
    (h : ∃ a ∈ args, a.name ≠ "self" ∧
      ∃ t, a.hint = some t ∧ isinstance a.value t = false) :
    typeCheckArgs args = Except.error PyErr.typeError := by
  induction args with
  | nil => simp at h
  | cons b rest ih =>
    obtain ⟨a, hmem, hname, t, hhint, hinst⟩ := h
    rw [typeCheckArgs]
    rcases List.mem_cons.mp hmem with rfl | hrest
    · rw [if_neg (by simpa using hname), hhint]
      dsimp only
      rw [if_neg (by simp [hinst])]
    · have htail := ih ⟨a, hrest, hname, t, hhint, hinst⟩
      by_cases hb : b.name = "self"
      · rw [if_pos (by simpa using hb)]
        exact htail
      · rw [if_neg (by simpa using hb)]
        cases hh : b.hint with
        | none => exact htail
        | some tb =>
          dsimp only
          by_cases hi : isinstance b.value tb = true
          · rw [if_pos hi]
            exact htail
          · rw [if_neg hi]

/-- If every checked argument passes its `isinstance` test, the checking
loop returns without error. -/
theorem typeCheckArgs_ok_of (args : List BoundArg)
    (h : ∀ a ∈ args, a.name ≠ "self" →
      ∀ t, a.hint = some t → isinstance a.value t = true) :
    typeCheckArgs args = Except.ok () := by
  induction args with
  | nil => rfl
  | cons b rest ih =>
    have htail := ih (fun a ha => h a (List.mem_cons_of_mem b ha))
    rw [typeCheckArgs]
    by_cases hb : b.name = "self"
    · rw [if_pos (by simpa using hb)]
      exact htail
    · rw [if_neg (by simpa using hb)]
      cases hh : b.hint with
      | none => exact htail
      | some tb =>
        dsimp only
        rw [if_pos (h b (List.mem_cons_self b rest) hb tb hh)]
        exact htail

/-- C4: for every method wrapped by `enforce_types` and every call, if some
argument bound to an annotated parameter is not an instance of the
annotated type, the wrapper raises `TypeError` without running the method
body (the result does not depend on `method`); if every annotated argument
matches, the wrapper calls the method on the same bound arguments and
returns its result unchanged. -/
theorem enforce_types_spec (method : List BoundArg → Except PyErr PyVal)
    (args : List BoundArg) :
    ((∃ a ∈ args, a.name ≠ "self" ∧
        ∃ t, a.hint = some t ∧ isinstance a.value t = false) →
      enforce_types method args = Except.error PyErr.typeError)
    ∧ ((∀ a ∈ args, a.name ≠ "self" →
        ∀ t, a.hint = some t → isinstance a.value t = true) →
      enforce_types method args = method args) := by
  constructor
  · intro h
    rw [enforce_types, typeCheckArgs_error_of args h]
  · intro h
    rw [enforce_types, typeCheckArgs_ok_of args h]

/-- Witness for C4: a mismatching annotated argument (`x : int` bound to a
string) makes the wrapper raise `TypeError`. -/
theorem enforce_types_spec_witness :
    enforce_types (fun _ => Except.ok PyVal.none)
      [⟨"x", some PyType.int, PyVal.str "a"⟩] =
      Except.error PyErr.typeError :=
  (enforce_types_spec (fun _ => Except.ok PyVal.none)
      [⟨"x", some PyType.int, PyVal.str "a"⟩]).1
    ⟨⟨"x", some PyType.int, PyVal.str "a"⟩, by simp, by simp,
      PyType.int, rfl, rfl⟩

/-- C10: an argument bound to the `self` parameter or to a parameter with
no type annotation is never checked by the `enforce_types` loop: its
presence (with any value) does not affect the outcome of the check at all. -/
theorem typeCheckArgs_skip (l1 l2 : List BoundArg) (a : BoundArg)
    (h : a.name = "self" ∨ a.hint = Option.none) :
    typeCheckArgs (l1 ++ a :: l2) = typeCheckArgs (l1 ++ l2) := by
  induction l1 with
  | nil =>
    simp only [List.nil_append]
    rw [typeCheckArgs]
    rcases h with hn | hh
    · rw [if_pos (by simpa using hn)]
    · by_cases hn : a.name = "self"
      · rw [if_pos (by simpa using hn)]
      · rw [if_neg (by simpa using hn), hh]
  | cons b rest ih =>
    simp only [List.cons_append]
    rw [typeCheckArgs]
    conv_rhs => rw [typeCheckArgs]
    by_cases hb : b.name = "self"
    · rw [if_pos (by simpa using hb), if_pos (by simpa using hb)]
      exact ih
    · rw [if_neg (by simpa using hb), if_neg (by simpa using hb)]
      cases hh : b.hint with
      | none => exact ih
      | some tb =>
        dsimp only
        by_cases hi : isinstance b.value tb = true
        · rw [if_pos hi, if_pos hi]
          exact ih
        · rw [if_neg hi, if_neg hi]

/-- Witness for C10: a `self` argument contributes nothing to the check. -/
theorem typeCheckArgs_skip_witness :
    typeCheckArgs [⟨"self", Option.none, PyVal.int 0⟩] = typeCheckArgs [] :=
  typeCheckArgs_skip [] [] ⟨"self", Option.none, PyVal.int 0⟩ (Or.inl rfl)

/-- Spec predicate, from the claim's words: `s` is exactly a `'#'` followed
by six hexadecimal digits. -/
def SixHexString (s : String) : Prop :=
  ∃ ds : List Char, s.data = '#' :: ds ∧ ds.length = 6 ∧
    ∀ c ∈ ds, isHexDigit c = true

/-- Spec predicate for the amended claim: `s` is a `'#'` followed by six
hexadecimal digits and a single trailing newline (accepted because
Python's `$` also matches just before a newline at the end of the
string). -/
def SixHexNewlineString (s : String) : Prop :=
  ∃ ds : List Char, s.data = '#' :: (ds ++ ['\n']) ∧ ds.length = 6 ∧
    ∀ c ∈ ds, isHexDigit c = true

/-- The embedded regex matcher accepts exactly `'#'` + six hex digits,
optionally followed by one trailing newline. -/
theorem hexMatchAux_iff (l : List Char) :
    hexMatchAux l = true ↔
      (∃ ds, l = '#' :: ds ∧ ds.length = 6 ∧ ∀ c ∈ ds, isHexDigit c = true) ∨
      (∃ ds, l = '#' :: (ds ++ ['\n']) ∧ ds.length = 6 ∧
        ∀ c ∈ ds, isHexDigit c = true) := by
  cases l with
  | nil => simp [hexMatchAux]
  | cons c rest =>
    rw [hexMatchAux]
    simp only [Bool.and_eq_true, Bool.or_eq_true, beq_iff_eq,
      List.all_eq_true]
    constructor
    · rintro ⟨rfl, h⟩
      rcases h with ⟨h6, hall⟩ | ⟨⟨h7, htake⟩, hlast⟩
      · exact Or.inl ⟨rest, rfl, h6, hall⟩
      · refine Or.inr ⟨rest.take 6, ?_, ?_, htake⟩
        · have hd : rest.dropLast ++ ['\n'] = rest :=
            List.dropLast_append_getLast? '\n' (Option.mem_def.mpr hlast)
          have hdl : rest.dropLast = rest.take 6 := by
            rw [List.dropLast_eq_take, h7]
          rw [hdl] at hd
          rw [hd]
        · simp [List.length_take, h7]
    · rintro (⟨ds, heq, h6, hall⟩ | ⟨ds, heq, h6, hall⟩)
      · injection heq with hc hrest
        subst hrest
        exact ⟨hc, Or.inl ⟨h6, hall⟩⟩
      · injection heq with hc hrest
        subst hrest
        refine ⟨hc, Or.inr ⟨⟨?_, ?_⟩, List.getLast?_concat ds⟩⟩
        · simp [h6]
        · intro x hx
          apply hall x
          have h' : List.take 6 (ds ++ ['\n']) = ds := by
            rw [← h6]
            exact List.take_left ds ['\n']
          simpa [h'] using hx

/-- C2 counterexample: the string `"#abcdef\n"` is not exactly a `'#'`
followed by six hexadecimal digits, yet `validate_hex` returns without
error: `re.match` succeeds because `$` matches just before the trailing
newline.  This refutes the claim as stated. -/
theorem validate_hex_cex :
    validate_hex (PyVal.str "#abcdef\n") = Except.ok ()
    ∧ ¬ SixHexString "#abcdef\n" := by
  refine ⟨rfl, ?_⟩
  rintro ⟨ds, h1, h2, -⟩
  have hlen : ("#abcdef\n".data).length = 8 := rfl
  rw [h1] at hlen
  simp [h2] at hlen

/-- C2 amended: for every string `color`, `validate_hex` returns without
error exactly when `color` is a `'#'` followed by six hexadecimal digits,
optionally followed by a single trailing newline; in every other case it
raises `ValueError`. -/
theorem validate_hex_amended (s : String) :
    (validate_hex (PyVal.str s) = Except.ok () ↔
      SixHexString s ∨ SixHexNewlineString s)
    ∧ (validate_hex (PyVal.str s) = Except.ok () ∨
      validate_hex (PyVal.str s) = Except.error PyErr.valueError) := by
  have hchar := hexMatchAux_iff s.data
  rw [validate_hex]
  by_cases h : hexMatch s = true
  · rw [if_pos h]
    rw [hexMatch, hchar] at h
    exact ⟨⟨fun _ => h, fun _ => rfl⟩, Or.inl rfl⟩
  · rw [if_neg h]
    rw [hexMatch] at h
    constructor
    · constructor
      · intro hc
        cases hc
      · intro hq
        exact absurd (hchar.mpr hq) h
    · exact Or.inr rfl

end VectorizerAi
